import Mathlib

/-!
Verification of the winterq worker-pool / runtime lifecycle subsystem.

The development shallowly embeds the C sources (`src/runtime.c` and the
threadpool implementation) component by component:

* `Lifecycle` — the Execution-Context reclamation state machine of
  `runtime.c`: `execute_microtask_timer`, `close_timer_callback`,
  `Worker_RequestContextFree`, `Worker_FreeContext` and the tails of
  `Worker_Eval_JS` / `Worker_Eval_Bytecode`.
* `Capacity` — the `max_contexts` guard of `Worker_NewContext` and the
  entry prologues of `Worker_Eval_JS` / `Worker_Eval_Bytecode`.
* `Queue` — the bounded FIFO `TaskQueue` (`enqueue_task` / `dequeue_task`)
  and the submission wrapper `add_script_task_to_pool`.
* `TimerTrace` — the timer registry viewed as a trace system, for the
  `clearTimeout`-before-fire guarantee.
* `TimerId` — the `next_timer_id` counter of `js_set_timer` with its
  `INT_MAX` wrap.
* `Steal` — the work-stealing scan `steal_task`.
* `Resize` — the shrink path of `resize_thread_pool` against the
  `worker_thread` loop guard.
* `Cancel` — `Worker_CancelContextTimers` with its timer-table mutex
  modelled explicitly, because the walk re-acquires the mutex it holds.

Machine integers are embedded as `Nat`/`Int` (the only overflow the sources
guard is the timer-id counter, handled explicitly in `TimerId`).
Well-paired mutex acquire/release brackets protect single-threaded
invariants in the source and are erased by the sequential embedding; the
one re-entrant acquisition (in `Cancel`) is modelled as the non-returning
outcome it is on the non-recursive `uv_mutex_t`.  Bounded
condition-variable waits are embedded by their timeout branch, noted where
it matters.
-/

namespace Lifecycle

/-- Context-lifecycle state of one `WorkerContext` (runtime.h): the
`active_timers` count (a C `int`) and the `pending_free` flag. -/
structure CtxState where
  active_timers : Int
  pending_free : Bool
deriving DecidableEq

/-- Result of one lifecycle operation on a context: `ctx` is the surviving
context state (`none` when `Worker_FreeContext` ran and the context is gone)
and `freedAt` records the context state observed at the moment
`Worker_FreeContext` was entered, if it was. -/
structure StepOut where
  ctx : Option CtxState
  freedAt : Option CtxState
deriving DecidableEq

/-- Worker_FreeContext (runtime.c 550-586): cancels the context's timers,
unlinks it from the runtime's live list, destroys the engine context, frees
the struct, and then invokes the stored completion callback.  In the model
the context disappears and the state at the call is recorded; a `some`
value in `freedAt` is therefore also the completion-callback event. -/
def Worker_FreeContext (c : CtxState) : StepOut :=
  ⟨none, some c⟩

/-- Tail of execute_microtask_timer (runtime.c 614-645): after draining the
pending-job queue it frees the context iff
`active_timers == 0 && pending_free` (line 642).  The drain itself only
touches engine state; any timers armed by drained jobs are reflected in the
`active_timers` value of the state passed in. -/
def execute_microtask_timer (c : CtxState) : StepOut :=
  if c.active_timers = 0 ∧ c.pending_free then Worker_FreeContext c
  else ⟨some c, none⟩

/-- close_timer_callback (runtime.c 648-685): removes the timer from the
table, releases the JS callback, decrements `active_timers`, and when the
count reaches 0 sets `pending_free = 1` and runs the microtask check. -/
def close_timer_callback (c : CtxState) : StepOut :=
  if c.active_timers - 1 = 0 then
    execute_microtask_timer ⟨c.active_timers - 1, true⟩
  else
    ⟨some ⟨c.active_timers - 1, c.pending_free⟩, none⟩

/-- Worker_RequestContextFree (runtime.c 1231-1241): sets `pending_free`,
and frees immediately iff `active_timers == 0`. -/
def Worker_RequestContextFree (c : CtxState) : StepOut :=
  if c.active_timers = 0 then Worker_FreeContext ⟨c.active_timers, true⟩
  else ⟨some ⟨c.active_timers, true⟩, none⟩

/-- Outcome of the engine evaluation inside `Worker_Eval_JS` /
`Worker_Eval_Bytecode`: success or an exception (compile or runtime error),
together with the context's `active_timers` value when `JS_Eval` returned
and the subsequent microtask drain finished (the timers armed by the
script; closes only run later, on the event loop). -/
inductive EvalOutcome where
  | ok (timers : Nat)
  | exn (timers : Nat)

/-- Result of `Worker_Eval_JS` (runtime.c 1080-1133): the C return code,
whether the host logger recorded an evaluation error, and the lifecycle
outcome for the fresh context the call created. -/
structure EvalOut where
  ret : Nat
  logged : Bool
  out : StepOut
deriving DecidableEq

/-- Worker_Eval_JS (runtime.c 1080-1133) on a fresh context
(`Worker_NewContext` yields `active_timers = 0`, `pending_free = 0`; the
evaluation leaves `active_timers = timers`).  On exception: log, set
`pending_free = 1`, run the microtask check, return 1.  On success: run the
microtask check, then if `active_timers == 0` run GC and
`Worker_RequestContextFree`, return 0.  `Worker_Eval_Bytecode`
(runtime.c 1135-1211) has the same lifecycle tail for both of its error
exits and for its success exit. -/
def Worker_Eval_JS (outcome : EvalOutcome) : EvalOut :=
  match outcome with
  | .exn t =>
      ⟨1, true, execute_microtask_timer ⟨(t : Int), true⟩⟩
  | .ok t =>
      match (execute_microtask_timer ⟨(t : Int), false⟩).ctx with
      | none => ⟨0, false, execute_microtask_timer ⟨(t : Int), false⟩⟩
      | some c =>
          if c.active_timers = 0 then ⟨0, false, Worker_RequestContextFree c⟩
          else ⟨0, false, execute_microtask_timer ⟨(t : Int), false⟩⟩

/-- The lifecycle operations through which the runtime ever reaches
`Worker_FreeContext` during normal operation: the microtask-drain check
(run after evaluations and after timer fires), the timer close callback,
an explicit `Worker_RequestContextFree`, and the two exits of script
evaluation.  (`Worker_FreeRuntime`, the runtime-shutdown walk, is the one
further caller and is outside this list.) -/
inductive LifeOp where
  | microtaskCheck
  | closeTimer
  | requestFree
  | evalOk (timers : Nat)
  | evalErr (timers : Nat)

/-- Dispatch of a lifecycle operation on a context state.  The two `eval`
operations act on the fresh context they create, so they ignore `c`. -/
def lifecycle_step (op : LifeOp) (c : CtxState) : StepOut :=
  match op with
  | .microtaskCheck => execute_microtask_timer c
  | .closeTimer => close_timer_callback c
  | .requestFree => Worker_RequestContextFree c
  | .evalOk t => (Worker_Eval_JS (.ok t)).out
  | .evalErr t => (Worker_Eval_JS (.exn t)).out

/-- Driving the remaining one-shot timer closes of a surviving context:
each armed timer that fires (or is cancelled) eventually runs
`close_timer_callback` on the loop.  The fuel is the number of closes
delivered. -/
def run_closes : Nat → CtxState → StepOut
  | 0, c => ⟨some c, none⟩
  | n + 1, c =>
      match (close_timer_callback c).ctx with
      | some c2 => run_closes n c2
      | none => close_timer_callback c

/-- Final reclamation state of an evaluation's context once every armed
timer has closed: either the evaluation already freed it, or the closes
delivered on the event loop do. -/
def eventual_freedAt (s : StepOut) : Option CtxState :=
  match s.ctx with
  | none => s.freedAt
  | some c => (run_closes c.active_timers.toNat c).freedAt

theorem execute_microtask_timer_live (c : CtxState)
    (h : ¬(c.active_timers = 0 ∧ c.pending_free = true)) :
    execute_microtask_timer c = ⟨some c, none⟩ := by
  unfold execute_microtask_timer
  rw [if_neg h]

theorem close_timer_callback_live (c : CtxState)
    (h : c.active_timers - 1 ≠ 0) :
    close_timer_callback c = ⟨some ⟨c.active_timers - 1, c.pending_free⟩, none⟩ := by
  unfold close_timer_callback
  rw [if_neg h]

theorem close_timer_callback_last (c : CtxState)
    (h : c.active_timers - 1 = 0) :
    close_timer_callback c = ⟨none, some ⟨0, true⟩⟩ := by
  unfold close_timer_callback execute_microtask_timer Worker_FreeContext
  rw [if_pos h, if_pos ⟨h, rfl⟩, h]

theorem execute_microtask_timer_guard (c s : CtxState)
    (h : (execute_microtask_timer c).freedAt = some s) :
    s.active_timers = 0 ∧ s.pending_free = true := by
  unfold execute_microtask_timer Worker_FreeContext at h
  by_cases hc : c.active_timers = 0 ∧ c.pending_free = true
  · rw [if_pos hc] at h
    cases Option.some.inj h
    exact hc
  · rw [if_neg hc] at h
    exact Option.noConfusion h

theorem close_timer_callback_guard (c s : CtxState)
    (h : (close_timer_callback c).freedAt = some s) :
    s.active_timers = 0 ∧ s.pending_free = true := by
  unfold close_timer_callback at h
  by_cases hc : c.active_timers - 1 = 0
  · rw [if_pos hc] at h
    exact execute_microtask_timer_guard _ _ h
  · rw [if_neg hc] at h
    exact Option.noConfusion h

theorem Worker_RequestContextFree_guard (c s : CtxState)
    (h : (Worker_RequestContextFree c).freedAt = some s) :
    s.active_timers = 0 ∧ s.pending_free = true := by
  unfold Worker_RequestContextFree Worker_FreeContext at h
  by_cases hc : c.active_timers = 0
  · rw [if_pos hc] at h
    cases Option.some.inj h
    exact ⟨hc, rfl⟩
  · rw [if_neg hc] at h
    exact Option.noConfusion h

theorem Worker_Eval_JS_guard (o : EvalOutcome) (s : CtxState)
    (h : (Worker_Eval_JS o).out.freedAt = some s) :
    s.active_timers = 0 ∧ s.pending_free = true := by
  cases o with
  | exn t => exact execute_microtask_timer_guard _ _ h
  | ok t =>
      unfold Worker_Eval_JS at h
      cases hs : (execute_microtask_timer ⟨(t : Int), false⟩).ctx with
      | none =>
          simp only [hs] at h
          exact execute_microtask_timer_guard _ _ h
      | some c =>
          simp only [hs] at h
          by_cases hc : c.active_timers = 0
          · rw [if_pos hc] at h
            exact Worker_RequestContextFree_guard _ _ h
          · rw [if_neg hc] at h
            exact execute_microtask_timer_guard _ _ h

/-- C1.  Every path by which evaluation completion, a timer close, or
`Worker_RequestContextFree` reaches `Worker_FreeContext` does so only in a
state with `active_timers == 0` and `pending_free == true`; whenever either
condition fails the operation leaves the context alive. -/
theorem c1_reclaim_only_when_eligible (op : LifeOp) (c s : CtxState)
    (h : (lifecycle_step op c).freedAt = some s) :
    s.active_timers = 0 ∧ s.pending_free = true := by
  cases op with
  | microtaskCheck => exact execute_microtask_timer_guard _ _ h
  | closeTimer => exact close_timer_callback_guard _ _ h
  | requestFree => exact Worker_RequestContextFree_guard _ _ h
  | evalOk t => exact Worker_Eval_JS_guard _ _ h
  | evalErr t => exact Worker_Eval_JS_guard _ _ h

/-- C1 witness: `Worker_RequestContextFree` on an idle context does free it,
and the freeing state satisfies the reclamation condition. -/
theorem c1_reclaim_only_when_eligible_witness :
    (lifecycle_step .requestFree ⟨0, false⟩).freedAt = some ⟨0, true⟩ ∧
      (0 : Int) = 0 ∧ true = true :=
  ⟨by decide,
   c1_reclaim_only_when_eligible .requestFree ⟨0, false⟩ ⟨0, true⟩ (by decide)⟩

theorem run_closes_drains (n : Nat) :
    ∀ pf : Bool, run_closes (n + 1) ⟨(n : Int) + 1, pf⟩ = ⟨none, some ⟨0, true⟩⟩ := by
  induction n with
  | zero =>
      intro pf
      have hlast : close_timer_callback ⟨((0 : Nat) : Int) + 1, pf⟩ =
          ⟨none, some ⟨0, true⟩⟩ :=
        close_timer_callback_last _ (by norm_num)
      show (match (close_timer_callback ⟨((0 : Nat) : Int) + 1, pf⟩).ctx with
            | some c2 => run_closes 0 c2
            | none => close_timer_callback ⟨((0 : Nat) : Int) + 1, pf⟩) =
          ⟨none, some ⟨0, true⟩⟩
      rw [hlast]
  | succ m ih =>
      intro pf
      have hne : (⟨((m + 1 : Nat) : Int) + 1, pf⟩ : CtxState).active_timers - 1 ≠ 0 := by
        show ((m + 1 : Nat) : Int) + 1 - 1 ≠ 0
        push_cast
        omega
      have hstep := close_timer_callback_live ⟨((m + 1 : Nat) : Int) + 1, pf⟩ hne
      have harith : ((m + 1 : Nat) : Int) + 1 - 1 = ((m : Nat) : Int) + 1 := by
        push_cast
        ring
      rw [show (⟨((m + 1 : Nat) : Int) + 1, pf⟩ : CtxState).active_timers - 1 =
            ((m + 1 : Nat) : Int) + 1 - 1 from rfl, harith] at hstep
      show (match (close_timer_callback ⟨((m + 1 : Nat) : Int) + 1, pf⟩).ctx with
            | some c2 => run_closes (m + 1) c2
            | none => close_timer_callback ⟨((m + 1 : Nat) : Int) + 1, pf⟩) =
          ⟨none, some ⟨0, true⟩⟩
      rw [hstep]
      exact ih pf

theorem eval_exn_out (t : Nat) :
    (Worker_Eval_JS (.exn t)).out =
      if t = 0 then (⟨none, some ⟨0, true⟩⟩ : StepOut)
      else ⟨some ⟨(t : Int), true⟩, none⟩ := by
  cases t with
  | zero => decide
  | succ m =>
      have hne : ¬((⟨((m + 1 : Nat) : Int), true⟩ : CtxState).active_timers = 0 ∧
          (⟨((m + 1 : Nat) : Int), true⟩ : CtxState).pending_free = true) := by
        intro hcon
        have h1 : ((m + 1 : Nat) : Int) = 0 := hcon.1
        omega
      show execute_microtask_timer ⟨((m + 1 : Nat) : Int), true⟩ = _
      rw [execute_microtask_timer_live _ hne, if_neg (Nat.succ_ne_zero m)]

theorem eval_ok_out (t : Nat) :
    (Worker_Eval_JS (.ok t)).out =
      if t = 0 then (⟨none, some ⟨0, true⟩⟩ : StepOut)
      else ⟨some ⟨(t : Int), false⟩, none⟩ := by
  cases t with
  | zero => decide
  | succ m =>
      have hne : ¬((⟨((m + 1 : Nat) : Int), false⟩ : CtxState).active_timers = 0 ∧
          (⟨((m + 1 : Nat) : Int), false⟩ : CtxState).pending_free = true) := by
        intro hcon
        exact Bool.false_ne_true hcon.2
      have hlive := execute_microtask_timer_live _ hne
      have hne2 : ((m + 1 : Nat) : Int) ≠ 0 := by
        push_cast
        omega
      simp only [Worker_Eval_JS, hlive]
      rw [if_neg hne2, if_neg (Nat.succ_ne_zero m)]

theorem eventual_of_live (a : Int) (pf : Bool) (h : a.toNat = a) :
    ∀ n : Nat, a = (n : Int) + 1 →
      eventual_freedAt ⟨some ⟨a, pf⟩, none⟩ = some ⟨0, true⟩ := by
  intro n hn
  show (run_closes (⟨a, pf⟩ : CtxState).active_timers.toNat ⟨a, pf⟩).freedAt = _
  have htn : (⟨a, pf⟩ : CtxState).active_timers.toNat = n + 1 := by
    show a.toNat = n + 1
    omega
  rw [htn, hn, run_closes_drains n pf]

/-- C2.  When the script evaluation throws (or compile fails),
`Worker_Eval_JS` logs the error and returns the nonzero code 1; the fresh
context is marked `pending_free` (freed at once when no timers were armed,
kept alive but marked when some were); and once every armed timer has
closed, the context is freed — firing the completion callback — at exactly
the same reclamation state as a successful run that armed the same number
of timers. -/
theorem c2_eval_error_teardown (t : Nat) :
    (Worker_Eval_JS (.exn t)).ret = 1 ∧
      (Worker_Eval_JS (.exn t)).logged = true ∧
      (Worker_Eval_JS (.exn t)).out.ctx =
        (if t = 0 then none else some ⟨(t : Int), true⟩) ∧
      eventual_freedAt (Worker_Eval_JS (.exn t)).out = some ⟨0, true⟩ ∧
      eventual_freedAt (Worker_Eval_JS (.ok t)).out = some ⟨0, true⟩ := by
  refine ⟨rfl, rfl, ?_, ?_, ?_⟩
  · rw [eval_exn_out]
    cases t with
    | zero => rfl
    | succ m => rw [if_neg (Nat.succ_ne_zero m), if_neg (Nat.succ_ne_zero m)]
  · rw [eval_exn_out]
    cases t with
    | zero => decide
    | succ m =>
        rw [if_neg (Nat.succ_ne_zero m)]
        exact eventual_of_live _ true (by omega) m (by push_cast; ring)
  · rw [eval_ok_out]
    cases t with
    | zero => decide
    | succ m =>
        rw [if_neg (Nat.succ_ne_zero m)]
        exact eventual_of_live _ false (by omega) m (by push_cast; ring)

end Lifecycle

namespace Capacity

/-- Context-count state of a `WorkerRuntime` (runtime.h): the live count and
the configured cap. -/
structure RtCap where
  context_count : Nat
  max_contexts : Nat
deriving DecidableEq

/-- Worker_NewContext capacity guard (runtime.c 1025-1078): under the
context mutex, when `context_count >= max_contexts` it logs and returns
NULL without creating anything; otherwise it creates the engine context,
increments the count, links the context and installs the script APIs. -/
def Worker_NewContext (r : RtCap) : Option RtCap :=
  if r.max_contexts ≤ r.context_count then none
  else some ⟨r.context_count + 1, r.max_contexts⟩

/-- Entry prologue of Worker_Eval_JS (runtime.c 1091-1092):

  WorkerContext *wctx = Worker_NewContext(wrt);
  JSContext *ctx = wctx->js_context;

There is no NULL check between the two lines, so when `Worker_NewContext`
returns NULL the second line dereferences a NULL pointer; `none` models
that crash (undefined behaviour) and `some 0` the defined path on which
evaluation proceeds.  The body past this point is out of this model's
scope. -/
def Worker_Eval_JS_entry (r : RtCap) : Option Nat :=
  match Worker_NewContext r with
  | none => none
  | some _ => some 0

/-- Entry prologue of Worker_Eval_Bytecode (runtime.c 1147-1151): unlike
`Worker_Eval_JS` it checks the result, logs "Failed to create new context"
and returns the failure code 1. -/
def Worker_Eval_Bytecode_entry (r : RtCap) : Option Nat :=
  match Worker_NewContext r with
  | none => some 1
  | some _ => some 0

/-- C3 (code bug, evaluated at the failing input).  On a runtime whose live
count has reached `max_contexts`, `Worker_NewContext` does fail with NULL
and creates nothing, and `Worker_Eval_Bytecode` surfaces that as the
nonzero return 1 — but `Worker_Eval_JS` dereferences the NULL context
pointer (modelled `none`) instead of returning a failure code, contradicting
its own header documentation (runtime.h 91-100: "失败返回非零值"). -/
theorem c3_eval_js_null_deref_at_capacity :
    Worker_NewContext ⟨1, 1⟩ = none ∧
      Worker_Eval_JS_entry ⟨1, 1⟩ = none ∧
      Worker_Eval_Bytecode_entry ⟨1, 1⟩ = some 1 := by
  decide

end Capacity

namespace Queue

/-- Task of the threadpool (threadpool.h): only the identity matters for
queue-order claims; payloads are carried by the submission model below. -/
structure Task where
  task_id : Nat
deriving DecidableEq

/-- TaskQueue (threadpool.h): the singly-linked FIFO as the list of queued
tasks (head = queue front) plus the configured cap (`0` = unbounded). -/
structure TaskQueue where
  tasks : List Task
  max_size : Nat
deriving DecidableEq

/-- The bounded wait used by a full `enqueue_task`
(threadpool.c `ts.tv_nsec += 100 * 1000000`). -/
def ENQUEUE_FULL_WAIT_MS : Nat := 100

/-- enqueue_task (threadpool.c 509-562).  With `max_size > 0` and the queue
full, the producer waits on `not_full` with the 100 ms timeout; absent a
concurrent dequeue the wait returns ETIMEDOUT and enqueue returns 1 with
the queue untouched (the sequential embedding of the timeout branch).
Otherwise the node is appended at the tail, `not_empty` signalled, and 0
returned. -/
def enqueue_task (q : TaskQueue) (t : Task) : Int × TaskQueue :=
  if 0 < q.max_size ∧ q.max_size ≤ q.tasks.length then (1, q)
  else (0, ⟨q.tasks ++ [t], q.max_size⟩)

/-- dequeue_task (threadpool.c 569-628): an empty queue waits on
`not_empty` with a 10 ms timeout and yields NULL on expiry (the sequential
embedding of the timeout branch); otherwise the head node is unlinked and
its task returned, signalling `not_full` when below the cap. -/
def dequeue_task (q : TaskQueue) : Option Task × TaskQueue :=
  match q.tasks with
  | [] => (none, q)
  | t :: rest => (some t, ⟨rest, q.max_size⟩)

/-- Result of add_script_task_to_pool (threadpool.c 1069-1109): the return
code, the queue afterwards, and whether the Task struct and its strdup'ed
script copy were freed on the failure path. -/
structure SubmitResult where
  ret : Int
  queue : TaskQueue
  task_freed : Bool
  script_copy_freed : Bool
deriving DecidableEq

/-- add_script_task_to_pool (threadpool.c 1069-1109), allocation succeeding:
builds the Task (with its strdup'ed script copy), tries the global enqueue,
and on a nonzero enqueue status frees the script copy and the Task and
returns -1. -/
def add_script_task_to_pool (q : TaskQueue) (t : Task) : SubmitResult :=
  if (enqueue_task q t).1 ≠ 0 then ⟨-1, (enqueue_task q t).2, true, true⟩
  else ⟨0, (enqueue_task q t).2, false, false⟩

/-- C4.  A bounded queue (`max_size > 0`) holding exactly `max_size` tasks
refuses an enqueue after the 100 ms bounded wait: `enqueue_task` returns 1
and the queue is unchanged, and `add_script_task_to_pool` maps that to -1,
freeing the Task and its payload copy. -/
theorem c4_full_queue_refusal (q : TaskQueue) (t : Task)
    (hpos : 0 < q.max_size) (hfull : q.tasks.length = q.max_size) :
    enqueue_task q t = (1, q) ∧
      add_script_task_to_pool q t = ⟨-1, q, true, true⟩ ∧
      ENQUEUE_FULL_WAIT_MS = 100 := by
  have hcond : 0 < q.max_size ∧ q.max_size ≤ q.tasks.length :=
    ⟨hpos, le_of_eq hfull.symm⟩
  have henq : enqueue_task q t = (1, q) := by
    unfold enqueue_task
    rw [if_pos hcond]
  refine ⟨henq, ?_, rfl⟩
  unfold add_script_task_to_pool
  rw [henq]
  norm_num

/-- C4 witness: a queue with cap 1 already holding one task refuses the
next submission. -/
theorem c4_full_queue_refusal_witness :
    0 < (⟨[⟨0⟩], 1⟩ : TaskQueue).max_size ∧
      (⟨[⟨0⟩], 1⟩ : TaskQueue).tasks.length = (⟨[⟨0⟩], 1⟩ : TaskQueue).max_size ∧
      (enqueue_task ⟨[⟨0⟩], 1⟩ ⟨1⟩ = (1, ⟨[⟨0⟩], 1⟩) ∧
        add_script_task_to_pool ⟨[⟨0⟩], 1⟩ ⟨1⟩ = ⟨-1, ⟨[⟨0⟩], 1⟩, true, true⟩ ∧
        ENQUEUE_FULL_WAIT_MS = 100) :=
  ⟨by decide, by decide, c4_full_queue_refusal ⟨[⟨0⟩], 1⟩ ⟨1⟩ (by decide) (by decide)⟩

/-- An operation applied to a task queue by some thread: a (successful or
refused) `enqueue_task` of a given task, or a `dequeue_task`. -/
inductive QOp where
  | enq (t : Task)
  | deq

/-- Running a sequence of queue operations.  Returns the final queue, the
list of tasks the queue accepted (in enqueue order), and the list of tasks
handed out by dequeue (in dequeue order); refused enqueues and
empty-timeout dequeues contribute nothing. -/
def run_ops : TaskQueue → List QOp → TaskQueue × List Task × List Task
  | q, [] => (q, [], [])
  | q, .enq t :: ops =>
      let r := enqueue_task q t
      let rest := run_ops r.2 ops
      if r.1 = 0 then (rest.1, t :: rest.2.1, rest.2.2)
      else (rest.1, rest.2.1, rest.2.2)
  | q, .deq :: ops =>
      match dequeue_task q with
      | (some t, q2) =>
          let rest := run_ops q2 ops
          (rest.1, rest.2.1, t :: rest.2.2)
      | (none, q2) => run_ops q2 ops

/-- C5 (FIFO).  Over any sequence of enqueue and dequeue operations on any
task queue, the tasks handed out by dequeue followed by the tasks still
queued are exactly the tasks initially queued followed by the accepted
enqueues, in order: dequeue removes tasks in exactly the order enqueue
inserted them. -/
theorem c5_fifo_order (ops : List QOp) (q : TaskQueue) :
    (run_ops q ops).2.2 ++ (run_ops q ops).1.tasks =
      q.tasks ++ (run_ops q ops).2.1 := by
  induction ops generalizing q with
  | nil => simp [run_ops]
  | cons op ops ih =>
      cases op with
      | enq t =>
          by_cases hfull : 0 < q.max_size ∧ q.max_size ≤ q.tasks.length
          · have henq : enqueue_task q t = (1, q) := by
              unfold enqueue_task
              rw [if_pos hfull]
            simp only [run_ops, henq]
            norm_num
            exact ih q
          · have henq : enqueue_task q t = (0, ⟨q.tasks ++ [t], q.max_size⟩) := by
              unfold enqueue_task
              rw [if_neg hfull]
            simp only [run_ops, henq]
            norm_num
            rw [ih ⟨q.tasks ++ [t], q.max_size⟩]
            simp
      | deq =>
          cases hq : q.tasks with
          | nil =>
              have hd : dequeue_task q = (none, q) := by
                unfold dequeue_task
                rw [hq]
              simp only [run_ops, hd, hq]
              simpa [hq] using ih q
          | cons t rest =>
              have hd : dequeue_task q = (some t, ⟨rest, q.max_size⟩) := by
                unfold dequeue_task
                rw [hq]
              simp only [run_ops, hd, hq]
              rw [List.cons_append, ih ⟨rest, q.max_size⟩]
              rfl

end Queue

namespace TimerTrace

/-- One timer of the registry: the script-visible id (`timer_data->timer_id`),
a token standing for the identity of the `timer_data_t` allocation and its
duplicated JS callback, and whether the platform `uv_timer_t` is started
(armed, not stopped). -/
structure TimerRec where
  timer_id : Nat
  token : Nat
  active : Bool
deriving DecidableEq

/-- Timer registry of one `WorkerRuntime`: the live records, plus a fresh
counter for tokens (each `js_set_timer` allocates a new `timer_data_t`). -/
structure TimerSys where
  timers : List TimerRec
  nextToken : Nat
deriving DecidableEq

/-- find_timer_by_id (runtime.c 918-939): first record with the id. -/
def find_timer_by_id (s : TimerSys) (i : Nat) : Option TimerRec :=
  s.timers.find? (fun r => r.timer_id == i)

/-- Stop (uv_timer_stop) the first record carrying the id — the one
`find_timer_by_id` returns. -/
def stop_first (i : Nat) : List TimerRec → List TimerRec
  | [] => []
  | r :: rs =>
      if r.timer_id == i then ⟨r.timer_id, r.token, false⟩ :: rs
      else r :: stop_first i rs

/-- clear_timer (runtime.c 806-815), used by js_clearTimeout
(runtime.c 818-839): look the id up in the registry; if a handle with timer
data is found, `uv_timer_stop` it immediately and `uv_close` it with
`close_timer_callback` (which releases the stored JS callback without ever
invoking it).  Stopping is immediate; the close runs later as a
`closeDone` event. -/
def clear_timer (s : TimerSys) (i : Nat) : TimerSys :=
  match find_timer_by_id s i with
  | none => s
  | some _ => ⟨stop_first i s.timers, s.nextToken⟩

/-- js_set_timer (runtime.c 739-791): allocates fresh timer data (a fresh
token), duplicates the callback, registers the id and starts the platform
timer. -/
def js_set_timer_arm (s : TimerSys) (i : Nat) : TimerSys :=
  ⟨⟨i, s.nextToken, true⟩ :: s.timers, s.nextToken + 1⟩

/-- A platform timer expiry delivered by the event loop.  libuv invokes
`timer_callback` only for handles that are started and not stopped, so the
script callback (the token) is invoked exactly when an active record with
that token exists; `timer_callback` (runtime.c 688-736) then stops the
one-shot handle. -/
def fire_step (s : TimerSys) (tok : Nat) : TimerSys × Option Nat :=
  if s.timers.any (fun r => r.token == tok && r.active) then
    (⟨s.timers.map
        (fun r => if r.token == tok then ⟨r.timer_id, r.token, false⟩ else r),
      s.nextToken⟩,
     some tok)
  else (s, none)

/-- close_timer_callback (runtime.c 648-685) for this record: removes the
registry entry and frees the timer data and its callback reference —
without invoking it. -/
def close_done (s : TimerSys) (tok : Nat) : TimerSys :=
  ⟨s.timers.filter (fun r => r.token != tok), s.nextToken⟩

/-- Events a worker's loop can deliver to the timer registry. -/
inductive TEvt where
  | set (i : Nat)
  | clear (i : Nat)
  | fire (tok : Nat)
  | closeDone (tok : Nat)

/-- One event step: the new registry state, and the token whose script
callback was invoked by the step, if any. -/
def step : TimerSys → TEvt → TimerSys × Option Nat
  | s, .set i => (js_set_timer_arm s i, none)
  | s, .clear i => (clear_timer s i, none)
  | s, .fire tok => fire_step s tok
  | s, .closeDone tok => (close_done s tok, none)

/-- Running a sequence of events; the second component lists the tokens
whose script callbacks were invoked, in order. -/
def run_trace : TimerSys → List TEvt → TimerSys × List Nat
  | s, [] => (s, [])
  | s, e :: es =>
      let rest := run_trace (step s e).1 es
      match (step s e).2 with
      | some tok => (rest.1, tok :: rest.2)
      | none => rest

/-- The stored callback `tok` can no longer run: its token was allocated
in the past and every record carrying it is stopped. -/
def callback_stopped (s : TimerSys) (tok : Nat) : Prop :=
  tok < s.nextToken ∧ ∀ r ∈ s.timers, r.token = tok → r.active = false

theorem stop_first_mem (i : Nat) :
    ∀ (l : List TimerRec) (x : TimerRec), x ∈ stop_first i l →
      x ∈ l ∨ x.active = false := by
  intro l
  induction l with
  | nil =>
      intro x hx
      simp [stop_first] at hx
  | cons r rs ih =>
      intro x hx
      unfold stop_first at hx
      by_cases hb : (r.timer_id == i) = true
      · rw [if_pos hb] at hx
        rcases List.mem_cons.mp hx with hx1 | hx2
        · right
          rw [hx1]
        · left
          exact List.mem_cons_of_mem r hx2
      · rw [if_neg hb] at hx
        rcases List.mem_cons.mp hx with hx1 | hx2
        · left
          rw [hx1]
          exact List.mem_cons_self r rs
        · rcases ih x hx2 with hmem | hdead
          · left
            exact List.mem_cons_of_mem r hmem
          · right
            exact hdead

theorem step_preserves_stopped (s : TimerSys) (tok : Nat)
    (h : callback_stopped s tok) (e : TEvt) :
    callback_stopped (step s e).1 tok ∧ (step s e).2 ≠ some tok := by
  obtain ⟨hlt, hdead⟩ := h
  cases e with
  | set i =>
      refine ⟨⟨Nat.lt_succ_of_lt hlt, ?_⟩, by simp [step]⟩
      intro r hr htok
      rcases List.mem_cons.mp hr with hr1 | hr2
      · exfalso
        have : r.token = s.nextToken := by rw [hr1]
        omega
      · exact hdead r hr2 htok
  | clear i =>
      refine ⟨⟨?_, ?_⟩, by simp [step]⟩
      · show tok < (clear_timer s i).nextToken
        unfold clear_timer
        cases hfind : find_timer_by_id s i with
        | none => exact hlt
        | some r => exact hlt
      · intro r hr htok
        have hmem : r ∈ (clear_timer s i).timers := hr
        unfold clear_timer at hmem
        cases hfind : find_timer_by_id s i with
        | none =>
            simp only [hfind] at hmem
            exact hdead r hmem htok
        | some r0 =>
            simp only [hfind] at hmem
            rcases stop_first_mem i s.timers r hmem with hin | hdead2
            · exact hdead r hin htok
            · exact hdead2
  | fire tok2 =>
      by_cases hany : (s.timers.any (fun r => r.token == tok2 && r.active)) = true
      · have hne : tok2 ≠ tok := by
          intro hEq
          subst hEq
          rcases List.any_eq_true.mp hany with ⟨r, hr, hcond⟩
          have hcond2 : r.token = tok2 ∧ r.active = true := by
            simpa using hcond
          have hfalse := hdead r hr hcond2.1
          rw [hfalse] at hcond2
          exact Bool.false_ne_true hcond2.2
        constructor
        · show callback_stopped (fire_step s tok2).1 tok
          unfold fire_step
          rw [if_pos hany]
          refine ⟨hlt, ?_⟩
          intro r hr htok
          rcases List.mem_map.mp hr with ⟨r0, hr0, hEq⟩
          by_cases hb : (r0.token == tok2) = true
          · rw [if_pos hb] at hEq
            rw [← hEq]
          · rw [if_neg hb] at hEq
            rw [← hEq] at htok ⊢
            exact hdead r0 hr0 htok
        · show (fire_step s tok2).2 ≠ some tok
          unfold fire_step
          rw [if_pos hany]
          intro hcon
          exact hne (Option.some.inj hcon)
      · have hstep : fire_step s tok2 = (s, none) := by
          unfold fire_step
          rw [if_neg hany]
        show callback_stopped (fire_step s tok2).1 tok ∧ (fire_step s tok2).2 ≠ some tok
        rw [hstep]
        exact ⟨⟨hlt, hdead⟩, by simp⟩
  | closeDone tok2 =>
      refine ⟨⟨hlt, ?_⟩, by simp [step]⟩
      intro r hr htok
      have := List.mem_filter.mp hr
      exact hdead r this.1 htok

theorem trace_never_invokes (tok : Nat) :
    ∀ (es : List TEvt) (s : TimerSys), callback_stopped s tok →
      tok ∉ (run_trace s es).2 := by
  intro es
  induction es with
  | nil =>
      intro s _
      simp [run_trace]
  | cons e es ih =>
      intro s hs
      obtain ⟨hpres, hout⟩ := step_preserves_stopped s tok hs e
      have hrest := ih (step s e).1 hpres
      unfold run_trace
      cases hm : (step s e).2 with
      | none => simpa using hrest
      | some tok2 =>
          simp only []
          intro hmem
          rcases List.mem_cons.mp hmem with h1 | h2
          · rw [hm, h1] at hout
            exact hout rfl
          · exact hrest h2

theorem find_first_match (r : TimerRec) (l₂ : List TimerRec) (i : Nat)
    (hr : r.timer_id = i) :
    ∀ l₁ : List TimerRec, (∀ x ∈ l₁, x.timer_id ≠ i) →
      List.find? (fun x => x.timer_id == i) (l₁ ++ r :: l₂) = some r := by
  intro l₁
  induction l₁ with
  | nil =>
      intro _
      simp [List.find?_cons_of_pos, hr]
  | cons x xs ih =>
      intro hl
      have hx : (x.timer_id == i) = false := by
        simp [hl x (List.mem_cons_self x xs)]
      rw [List.cons_append, List.find?_cons_of_neg _ (by simp [hx])]
      exact ih (fun y hy => hl y (List.mem_cons_of_mem x hy))

theorem stop_first_split (r : TimerRec) (l₂ : List TimerRec) (i : Nat)
    (hr : r.timer_id = i) :
    ∀ l₁ : List TimerRec, (∀ x ∈ l₁, x.timer_id ≠ i) →
      stop_first i (l₁ ++ r :: l₂) = l₁ ++ ⟨r.timer_id, r.token, false⟩ :: l₂ := by
  intro l₁
  induction l₁ with
  | nil =>
      intro _
      rw [List.nil_append, List.nil_append]
      simp only [stop_first]
      rw [if_pos (by simp [hr])]
  | cons x xs ih =>
      intro hl
      have hx : (x.timer_id == i) = false := by
        simp [hl x (List.mem_cons_self x xs)]
      rw [List.cons_append, List.cons_append]
      simp only [stop_first]
      rw [if_neg (by simp [hx]), ih (fun y hy => hl y (List.mem_cons_of_mem x hy))]

/-- C6.  If a `setTimeout` armed a timer (record `r` with callback token
`tok` returned under id `X`) and `clearTimeout(X)` runs before the timer
fires, then the cancellation immediately stops every record carrying that
callback, and over any subsequent sequence of loop events — new timers,
further clears, platform expiries, close callbacks — the stored script
callback is never invoked. -/
theorem c6_clear_before_fire (s : TimerSys) (X tok : Nat)
    (l₁ l₂ : List TimerRec) (r : TimerRec)
    (hsplit : s.timers = l₁ ++ r :: l₂)
    (hl₁ : ∀ x ∈ l₁, x.timer_id ≠ X)
    (hrid : r.timer_id = X) (hrtok : r.token = tok)
    (htok : tok < s.nextToken)
    (hl₁tok : ∀ x ∈ l₁, x.token ≠ tok) (hl₂tok : ∀ x ∈ l₂, x.token ≠ tok) :
    (clear_timer s X).timers = l₁ ++ ⟨X, tok, false⟩ :: l₂ ∧
      ∀ es : List TEvt, tok ∉ (run_trace (clear_timer s X) es).2 := by
  have hfind : find_timer_by_id s X = some r := by
    unfold find_timer_by_id
    rw [hsplit]
    exact find_first_match r l₂ X hrid l₁ hl₁
  have hclear : clear_timer s X =
      ⟨l₁ ++ ⟨r.timer_id, r.token, false⟩ :: l₂, s.nextToken⟩ := by
    unfold clear_timer
    rw [hfind, hsplit, stop_first_split r l₂ X hrid l₁ hl₁]
  have hstopped : callback_stopped (clear_timer s X) tok := by
    rw [hclear]
    refine ⟨htok, ?_⟩
    intro x hx hxtok
    rcases List.mem_append.mp hx with hx1 | hx2
    · exact absurd hxtok (hl₁tok x hx1)
    · rcases List.mem_cons.mp hx2 with hx3 | hx4
      · rw [hx3]
      · exact absurd hxtok (hl₂tok x hx4)
  refine ⟨?_, fun es => trace_never_invokes tok es _ hstopped⟩
  rw [hclear, hrid, hrtok]

/-- C6 witness: a single armed timer (id 7, token 0) is cleared; the record
is stopped at once and a later expiry delivery, a close, a fresh timer
reusing id 7 and its expiry never invoke token 0. -/
theorem c6_clear_before_fire_witness :
    ((⟨[⟨7, 0, true⟩], 1⟩ : TimerSys).timers = [] ++ ⟨7, 0, true⟩ :: [] ∧
        (0 : Nat) < (⟨[⟨7, 0, true⟩], 1⟩ : TimerSys).nextToken) ∧
      (clear_timer ⟨[⟨7, 0, true⟩], 1⟩ 7).timers = [] ++ ⟨7, 0, false⟩ :: [] ∧
      0 ∉ (run_trace (clear_timer ⟨[⟨7, 0, true⟩], 1⟩ 7)
            [.fire 0, .closeDone 0, .set 7, .fire 1]).2 := by
  have h := c6_clear_before_fire ⟨[⟨7, 0, true⟩], 1⟩ 7 0 [] [] ⟨7, 0, true⟩
    (by simp) (by simp) (by simp) (by simp) (by simp) (by simp) (by simp)
  exact ⟨⟨by simp, by simp⟩, h.1, h.2 [.fire 0, .closeDone 0, .set 7, .fire 1]⟩

end TimerTrace

namespace TimerId

/-- C's INT_MAX on the 32-bit int used for `next_timer_id`. -/
def INT_MAX : Nat := 2147483647

/-- The id-relevant state of a `WorkerRuntime`: the `next_timer_id` counter
and the multiset of ids present in the timer table (`add_timer_to_table`
prepends each new entry to its bucket; an id leaves the table only when
its timer fires or is cleared and the close callback runs). -/
structure IdState where
  next_timer_id : Nat
  table_ids : List Nat
deriving DecidableEq

/-- js_set_timer id assignment, under `context_mutex`
(runtime.c 773-784): when `next_timer_id >= INT_MAX` the counter is reset
to 1; then `timer_id = next_timer_id++` and `add_timer_to_table` registers
the id.  No comparison with the ids already present in the table is made. -/
def assign_timer_id (s : IdState) : Nat × IdState :=
  if INT_MAX ≤ s.next_timer_id then
    (1, ⟨2, 1 :: s.table_ids⟩)
  else
    (s.next_timer_id, ⟨s.next_timer_id + 1, s.next_timer_id :: s.table_ids⟩)

/-- Repeated `setTimeout`/`setInterval` calls whose timers all stay live
(long delays, none fired or cleared, so no entry leaves the table). -/
def iter_assign : Nat → IdState → IdState
  | 0, s => s
  | n + 1, s => (assign_timer_id (iter_assign n s)).2

/-- Ids `n, n-1, ..., 1`. -/
def countdown : Nat → List Nat
  | 0 => []
  | n + 1 => (n + 1) :: countdown n

theorem countdown_mem_one (n : Nat) (h : 1 ≤ n) : 1 ∈ countdown n := by
  induction n with
  | zero => omega
  | succ m ih =>
      cases Nat.eq_or_lt_of_le h with
      | inl h1 =>
          rw [← h1]
          exact List.mem_cons_self 1 (countdown 0)
      | inr h2 =>
          exact List.mem_cons_of_mem _ (ih (by omega))

theorem iter_assign_fresh (k : Nat) (hk : k + 1 ≤ INT_MAX) :
    iter_assign k ⟨1, []⟩ = ⟨k + 1, countdown k⟩ := by
  induction k with
  | zero => rfl
  | succ m ih =>
      have hm : m + 1 ≤ INT_MAX := by omega
      show (assign_timer_id (iter_assign m ⟨1, []⟩)).2 = _
      rw [ih hm]
      unfold assign_timer_id
      rw [if_neg (by show ¬(INT_MAX ≤ m + 1); omega)]
      rfl

/-- C7 counterexample.  Start a fresh runtime (`next_timer_id = 1`, empty
table) and run `INT_MAX - 1` consecutive `setTimeout` calls whose timers
all stay live (long delays, none fired or cleared).  The very next call
wraps and is assigned id 1, while a live timer with id 1 — the first one —
is still registered in the same table: the id assigned after wrapping
collides with a live id. -/
theorem c7_wrap_collision :
    (assign_timer_id (iter_assign (INT_MAX - 1) ⟨1, []⟩)).1 = 1 ∧
      1 ∈ (iter_assign (INT_MAX - 1) ⟨1, []⟩).table_ids := by
  have hiter : iter_assign (INT_MAX - 1) ⟨1, []⟩ =
      ⟨INT_MAX - 1 + 1, countdown (INT_MAX - 1)⟩ :=
    iter_assign_fresh (INT_MAX - 1) (by unfold INT_MAX; omega)
  constructor
  · rw [hiter]
    unfold assign_timer_id
    rw [if_pos (by show INT_MAX ≤ INT_MAX - 1 + 1; unfold INT_MAX; omega)]
  · rw [hiter]
    exact countdown_mem_one _ (by unfold INT_MAX; omega)

/-- C7 amended.  A fresh runtime assigns the consecutive ids
`1, 2, ..., k` over its first `k` timer registrations (`k ≤ INT_MAX - 1`),
leaving the counter at `k + 1`; and whenever the counter has reached
`INT_MAX` the next registration wraps and is assigned id 1 with the
counter restarting at 2.  (No freedom from collision with live table ids
is provided; see the counterexample.) -/
theorem c7_wrap_amended (k : Nat) (s : IdState)
    (hk : k + 1 ≤ INT_MAX) (hs : INT_MAX ≤ s.next_timer_id) :
    iter_assign k ⟨1, []⟩ = ⟨k + 1, countdown k⟩ ∧
      (assign_timer_id s).1 = 1 ∧
      (assign_timer_id s).2.next_timer_id = 2 := by
  refine ⟨iter_assign_fresh k hk, ?_, ?_⟩
  · unfold assign_timer_id
    rw [if_pos hs]
  · unfold assign_timer_id
    rw [if_pos hs]

/-- C7 amended witness: three registrations on a fresh runtime yield ids
3, 2, 1 (table order) and counter 4; a counter at INT_MAX wraps to id 1. -/
theorem c7_wrap_amended_witness :
    ((3 : Nat) + 1 ≤ INT_MAX ∧
        INT_MAX ≤ (⟨INT_MAX, [5]⟩ : IdState).next_timer_id) ∧
      (iter_assign 3 ⟨1, []⟩ = ⟨4, countdown 3⟩ ∧
        (assign_timer_id ⟨INT_MAX, [5]⟩).1 = 1 ∧
        (assign_timer_id ⟨INT_MAX, [5]⟩).2.next_timer_id = 2) :=
  ⟨⟨by decide, by decide⟩,
   c7_wrap_amended 3 ⟨INT_MAX, [5]⟩ (by decide) (by decide)⟩

end TimerId

namespace Steal

/-- A queued Task as the stealing code sees it: its id and its `pool`
back-pointer (pools named by number). -/
structure STask where
  task_id : Nat
  pool : Nat
deriving DecidableEq

/-- The per-victim state `steal_task` reads: the atomic `idle` flag, whether
`pthread_mutex_trylock` on the victim's local-queue mutex succeeds at this
instant (contention modelled as a snapshot), and the local queue. -/
structure VictimData where
  idle : Bool
  trylock_ok : Bool
  local_queue : List STask
deriving DecidableEq

/-- The pool state `steal_task` operates on. -/
structure StealPool where
  pool_id : Nat
  thread_data : List VictimData
deriving DecidableEq

/-- The probe under the acquired try-lock (threadpool.c 664-689): only when
the victim holds more than one task is the head node unlinked and taken,
leaving the rest. -/
def steal_from_victim (v : VictimData) : Option STask × VictimData :=
  if 1 < v.local_queue.length then
    match v.local_queue with
    | [] => (none, v)
    | t :: rest => (some t, ⟨v.idle, v.trylock_ok, rest⟩)
  else (none, v)

/-- The victim loop of steal_task (threadpool.c 649-697): for each candidate
index in order — skip self; skip a victim flagged idle; skip when the
try-lock fails; probe under the lock, and on success rewrite the stolen
task's `pool` back-pointer to the thief's pool and stop.  Failed probes
leave every queue untouched. -/
def steal_scan (p : StealPool) (thief : Nat) : List Nat → Option STask × StealPool
  | [] => (none, p)
  | v :: order =>
      if v = thief then steal_scan p thief order
      else
        match p.thread_data[v]? with
        | none => steal_scan p thief order
        | some vd =>
            if vd.idle = true then steal_scan p thief order
            else if vd.trylock_ok = true then
              match steal_from_victim vd with
              | (some t, vd2) =>
                  (some ⟨t.task_id, p.pool_id⟩,
                   ⟨p.pool_id, p.thread_data.set v vd2⟩)
              | (none, _) => steal_scan p thief order
            else steal_scan p thief order

/-- Visit order of steal_task (threadpool.c 646-651): a random start victim,
then the remaining indices cyclically. -/
def victim_order (start n : Nat) : List Nat :=
  (List.range n).map (fun j => (start + j) % n)

/-- steal_task (threadpool.c 637-700). -/
def steal_task (p : StealPool) (thief start : Nat) : Option STask × StealPool :=
  steal_scan p thief (victim_order start p.thread_data.length)

theorem steal_from_victim_some (vd : VictimData) (t0 : STask) (vd2 : VictimData)
    (h : steal_from_victim vd = (some t0, vd2)) :
    ∃ rest : List STask, vd.local_queue = t0 :: rest ∧ 1 ≤ rest.length ∧
      vd2 = ⟨vd.idle, vd.trylock_ok, rest⟩ := by
  unfold steal_from_victim at h
  by_cases hlen : 1 < vd.local_queue.length
  · rw [if_pos hlen] at h
    cases hq : vd.local_queue with
    | nil =>
        rw [hq] at hlen
        simp at hlen
    | cons a rest =>
        simp only [hq] at h
        rw [Prod.mk.injEq] at h
        obtain ⟨h1, h2⟩ := h
        cases Option.some.inj h1
        refine ⟨rest, rfl, ?_, h2.symm⟩
        rw [hq] at hlen
        simp at hlen
        omega
  · rw [if_neg hlen] at h
    rw [Prod.mk.injEq] at h
    exact absurd h.1 (by simp)

theorem steal_scan_spec (thief : Nat) (p : StealPool) :
    ∀ (order : List Nat) (t : STask) (p2 : StealPool),
      steal_scan p thief order = (some t, p2) →
      ∃ (v : Nat) (vd : VictimData) (t0 : STask) (rest : List STask),
        v ≠ thief ∧
        p.thread_data[v]? = some vd ∧
        vd.idle = false ∧
        vd.trylock_ok = true ∧
        vd.local_queue = t0 :: rest ∧
        1 ≤ rest.length ∧
        t = ⟨t0.task_id, p.pool_id⟩ ∧
        p2 = ⟨p.pool_id, p.thread_data.set v ⟨vd.idle, vd.trylock_ok, rest⟩⟩ := by
  intro order
  induction order with
  | nil =>
      intro t p2 h
      rw [steal_scan, Prod.mk.injEq] at h
      exact absurd h.1 (by simp)
  | cons v order ih =>
      intro t p2 h
      rw [steal_scan] at h
      by_cases hv : v = thief
      · rw [if_pos hv] at h
        exact ih t p2 h
      · rw [if_neg hv] at h
        cases hvd : p.thread_data[v]? with
        | none =>
            simp only [hvd] at h
            exact ih t p2 h
        | some vd =>
            simp only [hvd] at h
            by_cases hidle : vd.idle = true
            · rw [if_pos hidle] at h
              exact ih t p2 h
            · rw [if_neg hidle] at h
              by_cases hlock : vd.trylock_ok = true
              · rw [if_pos hlock] at h
                cases hsteal : steal_from_victim vd with
                | mk topt vd2 =>
                    cases topt with
                    | none =>
                        simp only [hsteal] at h
                        exact ih t p2 h
                    | some t0 =>
                        simp only [hsteal] at h
                        rw [Prod.mk.injEq] at h
                        obtain ⟨h1, h2⟩ := h
                        cases Option.some.inj h1
                        obtain ⟨rest, hq, hrest, hvd2⟩ :=
                          steal_from_victim_some vd t0 vd2 hsteal
                        subst hvd2
                        have hidle2 : vd.idle = false := by
                          simpa using hidle
                        exact ⟨v, vd, t0, rest, hv, hvd, hidle2, hlock, hq,
                          hrest, rfl, h2.symm⟩
              · rw [if_neg hlock] at h
                exact ih t p2 h

/-- C8.  Whenever `steal_task` returns a task, it was taken from some
victim that is not the thief itself and was not flagged idle, whose queue
try-lock succeeded, and whose local queue held more than one task; exactly
the head task was removed, at least one task was left behind, every other
victim's queue is unchanged (only slot `v` is rewritten), and the stolen
task's `pool` back-pointer now names the thief's pool. -/
theorem c8_steal_discipline (p : StealPool) (thief start : Nat)
    (t : STask) (p2 : StealPool)
    (h : steal_task p thief start = (some t, p2)) :
    ∃ (v : Nat) (vd : VictimData) (t0 : STask) (rest : List STask),
      v ≠ thief ∧
      p.thread_data[v]? = some vd ∧
      vd.idle = false ∧
      vd.trylock_ok = true ∧
      vd.local_queue = t0 :: rest ∧
      1 ≤ rest.length ∧
      t = ⟨t0.task_id, p.pool_id⟩ ∧
      p2 = ⟨p.pool_id, p.thread_data.set v ⟨vd.idle, vd.trylock_ok, rest⟩⟩ :=
  steal_scan_spec thief p (victim_order start p.thread_data.length) t p2 h

/-- C8 witness: thief 0 steals from busy victim 1 holding two tasks of a
foreign pool 5; one task is taken, one left, and the stolen task's pool
back-pointer is rewritten to pool 9. -/
theorem c8_steal_discipline_witness :
    steal_task ⟨9, [⟨false, true, []⟩, ⟨false, true, [⟨10, 5⟩, ⟨11, 5⟩]⟩]⟩ 0 1 =
      (some ⟨10, 9⟩, ⟨9, [⟨false, true, []⟩, ⟨false, true, [⟨11, 5⟩]⟩]⟩) ∧
      ∃ (v : Nat) (vd : VictimData) (t0 : STask) (rest : List STask),
        v ≠ 0 ∧
        (⟨9, [⟨false, true, []⟩, ⟨false, true, [⟨10, 5⟩, ⟨11, 5⟩]⟩]⟩ :
            StealPool).thread_data[v]? = some vd ∧
        vd.idle = false ∧
        vd.trylock_ok = true ∧
        vd.local_queue = t0 :: rest ∧
        1 ≤ rest.length ∧
        (⟨10, 9⟩ : STask) = ⟨t0.task_id, 9⟩ ∧
        (⟨9, [⟨false, true, []⟩, ⟨false, true, [⟨11, 5⟩]⟩]⟩ : StealPool) =
          ⟨9, (⟨9, [⟨false, true, []⟩, ⟨false, true, [⟨10, 5⟩, ⟨11, 5⟩]⟩]⟩ :
            StealPool).thread_data.set v ⟨vd.idle, vd.trylock_ok, rest⟩⟩ :=
  ⟨by decide,
   c8_steal_discipline ⟨9, [⟨false, true, []⟩, ⟨false, true, [⟨10, 5⟩, ⟨11, 5⟩]⟩]⟩
     0 1 ⟨10, 9⟩ ⟨9, [⟨false, true, []⟩, ⟨false, true, [⟨11, 5⟩]⟩]⟩ (by decide)⟩

end Steal

namespace Resize

/-- The one field of `ThreadData` that `resize_thread_pool`'s shrink path
writes and that the exit claim is about. -/
structure WorkerTD where
  thread_id : Int
deriving DecidableEq

/-- Shrink marking of resize_thread_pool (threadpool.c 1377-1383): every
ThreadData slot at index `new_thread_count` and above gets the constant
sentinel `-1` written into `thread_id` ("负值表示线程应当退出" — a negative
value means the thread should exit). -/
def resize_mark : Nat → List WorkerTD → List WorkerTD
  | _, [] => []
  | 0, _ :: rest => ⟨-1⟩ :: resize_mark 0 rest
  | n + 1, td :: rest => td :: resize_mark n rest

/-- The worker_thread loop guard (threadpool.c 768):
`while (!atomic_load(&pool->shutdown))`.  No statement in the loop body or
its condition reads `thread_data->thread_id` (it is copied to a local once,
before the loop), so the loop exits iff the pool-wide shutdown flag is
set — the ThreadData argument is genuinely unread. -/
def worker_should_exit (shutdown : Bool) (_td : WorkerTD) : Bool :=
  shutdown

/-- C9 (code bug, evaluated at the failing input).  Shrinking a 3-thread
pool to 1 writes `-1` — the same constant, not distinct negated thread
ids — into both removed slots, and a marked worker's loop guard still
evaluates to "keep running" while `shutdown` is false: the sentinel is
never observed, the loop does not exit after the current task, and the
`pthread_join` in resize (threadpool.c 1390) blocks. -/
theorem c9_sentinel_never_observed :
    resize_mark 1 [⟨0⟩, ⟨1⟩, ⟨2⟩] = [⟨0⟩, ⟨-1⟩, ⟨-1⟩] ∧
      worker_should_exit false ⟨-1⟩ = false := by
  decide

end Resize

namespace Cancel

/-- A timer-table entry as `Worker_CancelContextTimers` inspects it: the
registered id and the owning context (`timer_data->wctx`), contexts named
by number. -/
structure RegEntry where
  timer_id : Nat
  owner : Nat
deriving DecidableEq

/-- The state the cancellation touches: the registry's buckets and the
target context's `active_timers` counter. -/
structure RtTimers where
  buckets : List (List RegEntry)
  active_timers : Int
deriving DecidableEq

/-- The per-bucket entry walk of Worker_CancelContextTimers
(runtime.c 1292-1326), executed while the caller holds
`timer_table->mutex` (acquired at runtime.c 1286).  An entry owned by the
target context makes the walk call `clear_timer`, whose
`find_timer_by_id` re-acquires that same mutex (runtime.c 922), as does
the following `remove_timer_from_table` (runtime.c 980); the mutexes of
`uv_mutex_init` are not recursive, so the thread deadlocks and the walk
never gets past the first owned entry — `none` models that the function
never returns.  An entry of another context is kept and the walk moves
on without any lock-taking call.  (Entries whose timer data is NULL are
unlinked locally, also without locking; the model carries valid entries
only.) -/
def cancel_walk_bucket (c : Nat) : List RegEntry → Option (List RegEntry)
  | [] => some []
  | e :: rest =>
      if e.owner = c then none
      else
        match cancel_walk_bucket c rest with
        | none => none
        | some l => some (e :: l)

/-- The bucket loop of Worker_CancelContextTimers (runtime.c 1289-1327):
buckets are walked in order under the held mutex; a deadlock in any bucket
means the function never returns. -/
def cancel_walk (c : Nat) : List (List RegEntry) → Option (List (List RegEntry))
  | [] => some []
  | b :: bs =>
      match cancel_walk_bucket c b with
      | none => none
      | some b2 =>
          match cancel_walk c bs with
          | none => none
          | some bs2 => some (b2 :: bs2)

/-- Worker_CancelContextTimers (runtime.c 1280-1333): acquire the table
mutex, walk every bucket, release the mutex, then assign
`wctx->active_timers = 0` unconditionally (line 1332).  `none`: the walk
self-deadlocked re-acquiring the held mutex at a context-owned entry, so
the release at line 1329 and the assignment at line 1332 are never
reached. -/
def Worker_CancelContextTimers (c : Nat) (s : RtTimers) : Option RtTimers :=
  match cancel_walk c s.buckets with
  | none => none
  | some bs => some ⟨bs, 0⟩

theorem cancel_walk_bucket_returns (c : Nat) :
    ∀ (l l2 : List RegEntry), cancel_walk_bucket c l = some l2 →
      l2 = l ∧ ∀ e ∈ l, e.owner ≠ c := by
  intro l
  induction l with
  | nil =>
      intro l2 h
      rw [cancel_walk_bucket] at h
      refine ⟨(Option.some.inj h).symm, ?_⟩
      intro e he
      simp at he
  | cons x xs ih =>
      intro l2 h
      rw [cancel_walk_bucket] at h
      by_cases hx : x.owner = c
      · rw [if_pos hx] at h
        exact Option.noConfusion h
      · rw [if_neg hx] at h
        cases hrec : cancel_walk_bucket c xs with
        | none =>
            simp only [hrec] at h
            exact Option.noConfusion h
        | some l3 =>
            simp only [hrec] at h
            obtain ⟨hl3, hmem⟩ := ih l3 hrec
            cases Option.some.inj h
            refine ⟨by rw [hl3], ?_⟩
            intro e he
            rcases List.mem_cons.mp he with h1 | h2
            · rw [h1]
              exact hx
            · exact hmem e h2

theorem cancel_walk_returns (c : Nat) :
    ∀ (bs bs2 : List (List RegEntry)), cancel_walk c bs = some bs2 →
      bs2 = bs ∧ ∀ b ∈ bs, ∀ e ∈ b, e.owner ≠ c := by
  intro bs
  induction bs with
  | nil =>
      intro bs2 h
      rw [cancel_walk] at h
      refine ⟨(Option.some.inj h).symm, ?_⟩
      intro b hb
      simp at hb
  | cons b bs ih =>
      intro bs2 h
      rw [cancel_walk] at h
      cases hb : cancel_walk_bucket c b with
      | none =>
          simp only [hb] at h
          exact Option.noConfusion h
      | some b2 =>
          simp only [hb] at h
          cases hbs : cancel_walk c bs with
          | none =>
              simp only [hbs] at h
              exact Option.noConfusion h
          | some bs3 =>
              simp only [hbs] at h
              obtain ⟨hb2, hbmem⟩ := cancel_walk_bucket_returns c b b2 hb
              obtain ⟨hbs3, hbsmem⟩ := ih bs3 hbs
              cases Option.some.inj h
              refine ⟨by rw [hb2, hbs3], ?_⟩
              intro b0 hb0
              rcases List.mem_cons.mp hb0 with h1 | h2
              · intro e he
                rw [h1] at he
                exact hbmem e he
              · exact hbsmem b0 h2

/-- C10 (code bug, evaluated at the failing input).  On any context owning
a registered timer, the cancel walk — holding `timer_table->mutex` since
runtime.c 1286 — re-acquires that same non-recursive mutex inside
`clear_timer`/`find_timer_by_id` (runtime.c 922) at the first owned entry
and self-deadlocks: the function never returns and the forced
`active_timers = 0` of runtime.c 1332 is never reached (first conjunct:
a table with one entry owned by the cancelled context).  Whenever the
function does return, the context owned no registered timer at all: the
table comes back unchanged with the counter forced to 0, so the claimed
purged post-state is only ever reached vacuously (second conjunct). -/
theorem c10_cancel_self_deadlock :
    Worker_CancelContextTimers 1 ⟨[[⟨5, 1⟩]], 1⟩ = none ∧
      ∀ (c : Nat) (s s2 : RtTimers),
        Worker_CancelContextTimers c s = some s2 →
        s2.active_timers = 0 ∧ s2.buckets = s.buckets ∧
          ∀ b ∈ s.buckets, ∀ e ∈ b, e.owner ≠ c := by
  refine ⟨by decide, ?_⟩
  intro c s s2 h
  unfold Worker_CancelContextTimers at h
  cases hw : cancel_walk c s.buckets with
  | none =>
      simp only [hw] at h
      exact Option.noConfusion h
  | some bs =>
      simp only [hw] at h
      obtain ⟨hbs, hmem⟩ := cancel_walk_returns c s.buckets bs hw
      cases Option.some.inj h
      exact ⟨rfl, hbs, hmem⟩

/-- C10 witness: cancelling context 0 on a table whose only entry belongs
to context 1 does return; the counter is forced from 3 to 0, the table is
unchanged and owned no context-0 entry. -/
theorem c10_cancel_self_deadlock_witness :
    Worker_CancelContextTimers 0 ⟨[[⟨5, 1⟩]], 3⟩ = some ⟨[[⟨5, 1⟩]], 0⟩ ∧
      ((⟨[[⟨5, 1⟩]], 0⟩ : RtTimers).active_timers = 0 ∧
        (⟨[[⟨5, 1⟩]], 0⟩ : RtTimers).buckets =
          (⟨[[⟨5, 1⟩]], 3⟩ : RtTimers).buckets ∧
        ∀ b ∈ (⟨[[⟨5, 1⟩]], 3⟩ : RtTimers).buckets,
          ∀ e ∈ b, e.owner ≠ 0) :=
  ⟨by decide,
   c10_cancel_self_deadlock.2 0 ⟨[[⟨5, 1⟩]], 3⟩ ⟨[[⟨5, 1⟩]], 0⟩ (by decide)⟩

end Cancel
